import Mathlib

/-!
# go-cachestore: verification of the distributed lock protocol and key-value layer

The repository sources available here contain the engine definitions, client
options and the full test suite, but not the bodies of `lock.go`, `utils.go`
and `cachestore.go`.  The operations below are therefore modelled from the
specification (sections 3, 4, 6 and 7), with the error values and validation
order pinned by the test suite (`lock_test.go`, `utils_test.go`,
`cachestore_test.go`, `fuzz_test.go`, `validation_fuzz_test.go`).

The backing store is modelled as an association list from keys to entries;
time is an explicit natural-number parameter `now`, and a lock entry with
`expiresAt ≤ now` counts as expired (absent).  The random secret generator is
modelled by passing the generated secret (or a byte source) as an explicit
argument.
-/

set_option maxHeartbeats 1000000

namespace Cachestore

/-- Error taxonomy of the cachestore client, following the spec's error
handling design: validation errors (`keyRequired`, `secretRequired`,
`ttwRequired`), the acquire conflict (`lockedDifferentSecret`), the release
mismatch (`lockMismatch`), wait timeout, cooperative cancellation, a missing
entry on read, and an opaque backend store failure. -/
inductive CacheErr where
  | keyRequired
  | secretRequired
  | ttwRequired
  | lockMismatch
  | lockedDifferentSecret
  | waitTimeout
  | cancelledErr
  | notFound
  | storeFailed
deriving DecidableEq

/-- A live lock entry: the ownership secret and the absolute expiry instant. -/
structure LockEntry where
  secret : String
  expiresAt : Nat
deriving DecidableEq

/-- The backend store for locks: an association list from keys to entries. -/
abbrev LockStore := List (String × LockEntry)

/-- Whitespace-trimming of a string, structurally: drop leading and trailing
whitespace characters from the character list.  This is the validator's
"trims surrounding whitespace" operation. -/
def trimStr (s : String) : String :=
  String.mk (((s.data.dropWhile Char.isWhitespace).reverse.dropWhile
    Char.isWhitespace).reverse)

/-- First value bound to a key in an association list. -/
def lookupKey {β : Type} : List (String × β) → String → Option β
  | [], _ => none
  | (k, b) :: rest, key => if k = key then some b else lookupKey rest key

/-- Remove every binding of a key from an association list. -/
def removeKey {β : Type} : List (String × β) → String → List (String × β)
  | [], _ => []
  | (k, b) :: rest, key =>
    if k = key then removeKey rest key else (k, b) :: removeKey rest key

/-- The secret currently guarding a key, if the entry exists and has not yet
expired at instant `now`. -/
def lookupLive (st : LockStore) (key : String) (now : Nat) : Option String :=
  match lookupKey st key with
  | some e => if now < e.expiresAt then some e.secret else none
  | none => none

/-- Modelled from the spec: the backend's atomic `ConditionalInsert`
primitive (`lock.go` is absent from the sources).  Inserts the value with the
given TTL if the key is absent or expired; if a live entry holds the same
value, refreshes the TTL and succeeds; if a live entry holds a different
value, fails and leaves the store unchanged. -/
def conditionalInsert (st : LockStore) (key value : String) (ttl now : Nat) :
    Bool × LockStore :=
  match lookupLive st key now with
  | none => (true, (key, ⟨value, now + ttl⟩) :: removeKey st key)
  | some s =>
    if s = value then (true, (key, ⟨value, now + ttl⟩) :: removeKey st key)
    else (false, st)

/-- Modelled from the spec: the backend's atomic `ConditionalDelete`
primitive (`lock.go` is absent from the sources).  Deletes the entry only if
a live entry exists and its stored value equals the expected one. -/
def conditionalDelete (st : LockStore) (key expected : String) (now : Nat) :
    Bool × LockStore :=
  match lookupLive st key now with
  | some s => if s = expected then (true, removeKey st key) else (false, st)
  | none => (false, st)

/-- Modelled from the spec: `WriteLockWithSecret` (`lock.go` is absent from
the sources).  Validates the trimmed lock key, then the trimmed secret, then
performs the conditional insert; on success returns the supplied secret, on a
live conflicting entry fails with the "locked with a different secret"
error and an empty secret. -/
def WriteLockWithSecret (st : LockStore) (lockKey secret : String)
    (ttl now : Nat) : (String × Option CacheErr) × LockStore :=
  if trimStr lockKey = "" then (("", some .keyRequired), st)
  else if trimStr secret = "" then (("", some .secretRequired), st)
  else
    match conditionalInsert st (trimStr lockKey) secret ttl now with
    | (true, st1) => ((secret, none), st1)
    | (false, st1) => (("", some .lockedDifferentSecret), st1)

/-- Modelled from the spec: `WriteLock` (`lock.go` is absent from the
sources).  Generates a fresh random secret — modelled as the explicit
argument `gen` — validates the trimmed lock key and performs the conditional
insert with the generated secret. -/
def WriteLock (st : LockStore) (lockKey : String) (ttl now : Nat)
    (gen : String) : (String × Option CacheErr) × LockStore :=
  if trimStr lockKey = "" then (("", some .keyRequired), st)
  else
    match conditionalInsert st (trimStr lockKey) gen ttl now with
    | (true, st1) => ((gen, none), st1)
    | (false, st1) => (("", some .lockedDifferentSecret), st1)

/-- Modelled from the spec: `ReleaseLock` (`lock.go` is absent from the
sources).  Validates the trimmed key and secret (distinct errors, key first,
as pinned by `TestClient_ReleaseLock`), then performs the compare-and-delete:
a live matching entry is removed (`true`, no error), an absent or expired
entry is a no-op (`false`, no error), and a live entry with a different
secret fails with the lock-mismatch error leaving the store unchanged. -/
def ReleaseLock (st : LockStore) (lockKey secret : String) (now : Nat) :
    (Bool × Option CacheErr) × LockStore :=
  if trimStr lockKey = "" then ((false, some .keyRequired), st)
  else if trimStr secret = "" then ((false, some .secretRequired), st)
  else
    match lookupLive st (trimStr lockKey) now with
    | none => ((false, none), st)
    | some s =>
      if s = secret then ((true, none), removeKey st (trimStr lockKey))
      else ((false, some .lockMismatch), st)

/-- Modelled from the spec: the polling loop of `WaitWriteLock` (`lock.go`
is absent from the sources).  Each element of `polls` is one poll tick: the
instant at which it fires and the fresh secret generated for that attempt.
At each tick the loop first checks the caller context for cancellation and,
if cancelled, returns the cancellation error at once; otherwise it performs
one full `WriteLock` attempt and either returns its success or keeps
polling.  An exhausted poll budget is the wait timeout. -/
def waitLoop (st : LockStore) (lockKey : String) (ttl : Nat)
    (polls : List (Nat × String)) (cancelledAt : Nat → Bool) :
    (String × Option CacheErr) × LockStore :=
  match polls with
  | [] => (("", some .waitTimeout), st)
  | (t, g) :: rest =>
    if cancelledAt t then (("", some .cancelledErr), st)
    else
      match WriteLock st lockKey ttl t g with
      | ((s, none), st1) => ((s, none), st1)
      | ((_, some _), _) => waitLoop st lockKey ttl rest cancelledAt

/-- Modelled from the spec: `WaitWriteLock` (`lock.go` is absent from the
sources).  Validates the trimmed lock key first (pinned by
`TestClient_WaitWriteLock`), then fails with the "wait time required"
error when `ttw ≤ 0`, and otherwise runs the polling loop. -/
def WaitWriteLock (st : LockStore) (lockKey : String) (ttl : Nat) (ttw : Int)
    (polls : List (Nat × String)) (cancelledAt : Nat → Bool) :
    (String × Option CacheErr) × LockStore :=
  if trimStr lockKey = "" then (("", some .keyRequired), st)
  else if ttw ≤ 0 then (("", some .ttwRequired), st)
  else waitLoop st lockKey ttl polls cancelledAt

/-- Outcome of a Go call that may return a value, return an error value, or
panic. -/
inductive GoResult (α : Type) where
  | ok (a : α)
  | err (e : String)
  | panicked
deriving DecidableEq

/-- Lowercase hexadecimal digit for a value below 16. -/
def hexDigit (n : Nat) : Char :=
  if n < 10 then Char.ofNat (48 + n) else Char.ofNat (87 + n)

/-- Lowercase hexadecimal encoding of a byte list, two digits per byte. -/
def hexEncode : List Nat → List Char
  | [] => []
  | b :: rest => hexDigit (b / 16 % 16) :: hexDigit (b % 16) :: hexEncode rest

/-- Modelled from the spec: `RandomHex` (`utils.go` is absent from the
sources).  Reads `n` bytes from the random source — modelled as the explicit
byte stream `rand`, reduced modulo 256 — and returns their lowercase
hexadecimal encoding of length `2n`.  For negative `n` the byte-slice
allocation panics, as pinned by `TestRandomHex`. -/
def RandomHex (n : Int) (rand : Nat → Nat) : GoResult String :=
  if n < 0 then .panicked
  else .ok (String.mk (hexEncode ((List.range n.toNat).map fun i => rand i % 256)))

/-- The sixteen lowercase hexadecimal characters. -/
def hexLowerChars : List Char := "0123456789abcdef".data

/-- The backend store for the plain key-value layer. -/
abbrev KVStore := List (String × String)

/-- Modelled from the spec: the client's `Set` (`cachestore.go` is absent
from the sources).  Fails validation when the trimmed key is empty and
otherwise stores the value under the whitespace-trimmed key, as pinned by
`TestClient_Set` and `FuzzKeyTrimming`. -/
def Set (st : KVStore) (key value : String) : Option CacheErr × KVStore :=
  if trimStr key = "" then (some .keyRequired, st)
  else (none, (trimStr key, value) :: removeKey st (trimStr key))

/-- Modelled from the spec: the client's `Get` (`cachestore.go` is absent
from the sources).  Fails validation when the trimmed key is empty and
otherwise looks the value up under the whitespace-trimmed key; a missing
entry is the not-found error. -/
def Get (st : KVStore) (key : String) : Except CacheErr String :=
  if trimStr key = "" then .error .keyRequired
  else
    match lookupKey st (trimStr key) with
    | some v => .ok v
    | none => .error .notFound

/-- Modelled from the spec: the client's `Delete` (`cachestore.go` is absent
from the sources).  Fails validation when the trimmed key is empty and
otherwise removes the entry stored under the whitespace-trimmed key. -/
def Delete (st : KVStore) (key : String) : Option CacheErr × KVStore :=
  if trimStr key = "" then (some .keyRequired, st)
  else (none, removeKey st (trimStr key))

/-! ## Helper lemmas about the association-list store -/

theorem lookupKey_cons_self {β : Type} (st : List (String × β)) (k : String)
    (b : β) : lookupKey ((k, b) :: st) k = some b := by
  simp [lookupKey]

theorem lookupKey_removeKey_self {β : Type} (st : List (String × β))
    (k : String) : lookupKey (removeKey st k) k = none := by
  induction st with
  | nil => rfl
  | cons p rest ih =>
    obtain ⟨k1, b⟩ := p
    by_cases h : k1 = k
    · simpa [removeKey, h] using ih
    · simpa [removeKey, lookupKey, h] using ih

theorem lookupLive_removeKey_self (st : LockStore) (k : String) (now : Nat) :
    lookupLive (removeKey st k) k now = none := by
  simp [lookupLive, lookupKey_removeKey_self]

theorem lookupLive_insert_self (st : LockStore) (k v : String)
    (exp now : Nat) (h : now < exp) :
    lookupLive ((k, ⟨v, exp⟩) :: st) k now = some v := by
  simp [lookupLive, lookupKey, h]

example : trimStr " key " = "key" := by decide

example : (Set [] " key " "v").1 = none := by decide

example : Get (Set [] " key " "v").2 "key" = .ok "v" := rfl

example : (WriteLock [] "k" 30 0 "s1").1 = ("s1", none) := by decide

example :
    (WriteLock (WriteLock [] "k" 30 0 "s1").2 "k" 30 1 "s2").1 =
      ("", some CacheErr.lockedDifferentSecret) := by decide

example : RandomHex 2 (fun i => 171 + i) = .ok "abac" := by decide

example : RandomHex 0 (fun i => i) = .ok "" := by decide

example : RandomHex (-1) (fun i => i) = .panicked := by decide

/-! ## Claims -/

/-- C1: For every non-empty lockKey, if Acquire (WriteLock) succeeds and the
lock is neither released nor expired, a second Acquire call on the same
lockKey — with its freshly generated random secret, which differs from the
stored one — fails with the "locked by a different secret" conflict error,
distinct from the store-operation failure, returns an empty secret, and
leaves the store unchanged. -/
theorem writeLock_second_acquire_conflicts
    (st : LockStore) (k : String) (ttl now1 now2 : Nat) (g1 g2 : String)
    (hk : trimStr k ≠ "")
    (hfree : lookupLive st (trimStr k) now1 = none)
    (hlive : now2 < now1 + ttl)
    (hfresh : g2 ≠ g1) :
    (WriteLock st k ttl now1 g1).1 = (g1, none) ∧
    (WriteLock (WriteLock st k ttl now1 g1).2 k ttl now2 g2).1 =
      ("", some CacheErr.lockedDifferentSecret) ∧
    (WriteLock (WriteLock st k ttl now1 g1).2 k ttl now2 g2).2 =
      (WriteLock st k ttl now1 g1).2 ∧
    CacheErr.lockedDifferentSecret ≠ CacheErr.storeFailed := by
  have h1 : WriteLock st k ttl now1 g1 =
      ((g1, none), (trimStr k, ⟨g1, now1 + ttl⟩) :: removeKey st (trimStr k)) := by
    simp [WriteLock, conditionalInsert, hk, hfree]
  have h2 : WriteLock ((trimStr k, ⟨g1, now1 + ttl⟩) ::
      removeKey st (trimStr k)) k ttl now2 g2 =
      (("", some CacheErr.lockedDifferentSecret),
        (trimStr k, ⟨g1, now1 + ttl⟩) :: removeKey st (trimStr k)) := by
    simp [WriteLock, conditionalInsert, hk,
      lookupLive_insert_self _ _ _ _ _ hlive, Ne.symm hfresh]
  simp [h1, h2]

theorem writeLock_second_acquire_conflicts_witness :
    (WriteLock [] "job" 30 0 "aaaa").1 = ("aaaa", none) ∧
    (WriteLock (WriteLock [] "job" 30 0 "aaaa").2 "job" 30 10 "bbbb").1 =
      ("", some CacheErr.lockedDifferentSecret) ∧
    (WriteLock (WriteLock [] "job" 30 0 "aaaa").2 "job" 30 10 "bbbb").2 =
      (WriteLock [] "job" 30 0 "aaaa").2 ∧
    CacheErr.lockedDifferentSecret ≠ CacheErr.storeFailed :=
  writeLock_second_acquire_conflicts [] "job" 30 0 10 "aaaa" "bbbb"
    (by decide) (by decide) (by decide) (by decide)

/-- C2: For every non-empty lockKey, a successful Acquire (WriteLock)
immediately followed by Release (ReleaseLock) with the secret that Acquire
returned yields released = true with no error, and after that release a
subsequent Acquire on the same lockKey succeeds. -/
theorem acquire_release_reacquire
    (st : LockStore) (k g g2 : String) (ttl now : Nat)
    (hk : trimStr k ≠ "") (hg : trimStr g ≠ "") (httl : 0 < ttl)
    (hfree : lookupLive st (trimStr k) now = none) :
    (WriteLock st k ttl now g).1 = (g, none) ∧
    (ReleaseLock (WriteLock st k ttl now g).2 k g now).1 = (true, none) ∧
    (WriteLock (ReleaseLock (WriteLock st k ttl now g).2 k g now).2
      k ttl now g2).1 = (g2, none) := by
  have hlive : now < now + ttl := Nat.lt_add_of_pos_right httl
  have h1 : WriteLock st k ttl now g =
      ((g, none), (trimStr k, ⟨g, now + ttl⟩) :: removeKey st (trimStr k)) := by
    simp [WriteLock, conditionalInsert, hk, hfree]
  have h2 : ReleaseLock ((trimStr k, ⟨g, now + ttl⟩) ::
      removeKey st (trimStr k)) k g now =
      ((true, none), removeKey (removeKey st (trimStr k)) (trimStr k)) := by
    simp [ReleaseLock, hk, hg, lookupLive_insert_self _ _ _ _ _ hlive, removeKey]
  have h3 : (WriteLock (removeKey (removeKey st (trimStr k)) (trimStr k))
      k ttl now g2).1 = (g2, none) := by
    simp [WriteLock, conditionalInsert, hk, lookupLive_removeKey_self]
  simp [h1, h2, h3]

theorem acquire_release_reacquire_witness :
    (WriteLock [] "job" 30 0 "aaaa").1 = ("aaaa", none) ∧
    (ReleaseLock (WriteLock [] "job" 30 0 "aaaa").2 "job" "aaaa" 0).1 =
      (true, none) ∧
    (WriteLock (ReleaseLock (WriteLock [] "job" 30 0 "aaaa").2
      "job" "aaaa" 0).2 "job" 30 0 "cccc").1 = ("cccc", none) :=
  acquire_release_reacquire [] "job" "aaaa" "cccc" 30 0
    (by decide) (by decide) (by decide) (by decide)

/-- C3: For every non-empty lockKey and non-empty secret, AcquireWithSecret
(WriteLockWithSecret) called twice with the identical (lockKey, secret) pair
before the lock expires succeeds both times, each call returning the supplied
secret, and the second call refreshes the TTL: the stored entry afterwards
expires at the second call's instant plus the TTL. -/
theorem writeLockWithSecret_idempotent_renewal
    (st : LockStore) (k s : String) (ttl now1 now2 : Nat)
    (hk : trimStr k ≠ "") (hs : trimStr s ≠ "")
    (hfree : lookupLive st (trimStr k) now1 = none)
    (hlive : now2 < now1 + ttl) :
    (WriteLockWithSecret st k s ttl now1).1 = (s, none) ∧
    (WriteLockWithSecret (WriteLockWithSecret st k s ttl now1).2
      k s ttl now2).1 = (s, none) ∧
    lookupKey (WriteLockWithSecret (WriteLockWithSecret st k s ttl now1).2
      k s ttl now2).2 (trimStr k) = some ⟨s, now2 + ttl⟩ := by
  have h1 : WriteLockWithSecret st k s ttl now1 =
      ((s, none), (trimStr k, ⟨s, now1 + ttl⟩) :: removeKey st (trimStr k)) := by
    simp [WriteLockWithSecret, conditionalInsert, hk, hs, hfree]
  have h2 : WriteLockWithSecret ((trimStr k, ⟨s, now1 + ttl⟩) ::
      removeKey st (trimStr k)) k s ttl now2 =
      ((s, none), (trimStr k, ⟨s, now2 + ttl⟩) ::
        removeKey ((trimStr k, ⟨s, now1 + ttl⟩) ::
          removeKey st (trimStr k)) (trimStr k)) := by
    simp [WriteLockWithSecret, conditionalInsert, hk, hs,
      lookupLive_insert_self _ _ _ _ _ hlive]
  simp [h1, h2, lookupKey_cons_self]

theorem writeLockWithSecret_idempotent_renewal_witness :
    (WriteLockWithSecret [] "job" "secret" 30 0).1 = ("secret", none) ∧
    (WriteLockWithSecret (WriteLockWithSecret [] "job" "secret" 30 0).2
      "job" "secret" 30 10).1 = ("secret", none) ∧
    lookupKey (WriteLockWithSecret (WriteLockWithSecret []
      "job" "secret" 30 0).2 "job" "secret" 30 10).2 (trimStr "job") =
      some ⟨"secret", 10 + 30⟩ :=
  writeLockWithSecret_idempotent_renewal [] "job" "secret" 30 0 10
    (by decide) (by decide) (by decide) (by decide)

/-- C4: For every live lock on a non-empty lockKey, Release (ReleaseLock)
called with the correct key but a (non-empty) secret different from the
stored one fails with released = false and the lock-mismatch error, and
leaves the store — hence the stored lock entry with the original holder's
secret — unchanged. -/
theorem releaseLock_wrong_secret
    (st : LockStore) (k s bad : String) (now exp : Nat)
    (hk : trimStr k ≠ "") (hbad : trimStr bad ≠ "")
    (hstored : lookupKey st (trimStr k) = some ⟨s, exp⟩)
    (hlive : now < exp) (hne : s ≠ bad) :
    ReleaseLock st k bad now = ((false, some CacheErr.lockMismatch), st) := by
  simp [ReleaseLock, hk, hbad, lookupLive, hstored, hlive, hne]

theorem releaseLock_wrong_secret_witness :
    ReleaseLock [("job", ⟨"aaaa", 30⟩)] "job" "aaaa-bad-key" 0 =
      ((false, some CacheErr.lockMismatch), [("job", ⟨"aaaa", 30⟩)]) :=
  releaseLock_wrong_secret [("job", ⟨"aaaa", 30⟩)] "job" "aaaa"
    "aaaa-bad-key" 0 30 (by decide) (by decide) (by decide) (by decide)
    (by decide)

/-- C5: For every non-empty lockKey and secret guarding a live lock, after a
successful Release (ReleaseLock) a second Release call with the same
arguments returns released = false with no error and leaves the store
unchanged (a no-op, not a failure). -/
theorem releaseLock_second_noop
    (st : LockStore) (k s : String) (now exp : Nat)
    (hk : trimStr k ≠ "") (hs : trimStr s ≠ "")
    (hstored : lookupKey st (trimStr k) = some ⟨s, exp⟩)
    (hlive : now < exp) :
    (ReleaseLock st k s now).1 = (true, none) ∧
    ReleaseLock (ReleaseLock st k s now).2 k s now =
      ((false, none), (ReleaseLock st k s now).2) := by
  have h1 : ReleaseLock st k s now = ((true, none), removeKey st (trimStr k)) := by
    simp [ReleaseLock, hk, hs, lookupLive, hstored, hlive]
  have h2 : ReleaseLock (removeKey st (trimStr k)) k s now =
      ((false, none), removeKey st (trimStr k)) := by
    simp [ReleaseLock, hk, hs, lookupLive_removeKey_self]
  simp [h1, h2]

theorem releaseLock_second_noop_witness :
    (ReleaseLock [("job", ⟨"aaaa", 30⟩)] "job" "aaaa" 0).1 = (true, none) ∧
    ReleaseLock (ReleaseLock [("job", ⟨"aaaa", 30⟩)] "job" "aaaa" 0).2
      "job" "aaaa" 0 =
      ((false, none), (ReleaseLock [("job", ⟨"aaaa", 30⟩)] "job" "aaaa" 0).2) :=
  releaseLock_second_noop [("job", ⟨"aaaa", 30⟩)] "job" "aaaa" 0 30
    (by decide) (by decide) (by decide) (by decide)


/-- C6 (counterexample): the claim quantifies over every lockKey, but the
lock key is validated first, so for a lockKey whose trimmed form is empty
WaitWriteLock with ttw = 0 fails with the key-required validation error, not
the wait-time-required one. -/
theorem waitWriteLock_ttw_claim_counterexample :
    (WaitWriteLock [] "" 30 0 [] (fun _ => false)).1 =
      ("", some CacheErr.keyRequired) ∧
    some CacheErr.keyRequired ≠ some CacheErr.ttwRequired := by
  constructor
  · rfl
  · decide

/-- C6 (amended): for every lockKey whose trimmed form is non-empty and
every maxWaitSeconds (ttw) less than or equal to zero, WaitAcquire
(WaitWriteLock) fails immediately with the wait-time-required validation
error, returns an empty secret, and leaves the store unchanged — no lock
acquisition is attempted. -/
theorem waitWriteLock_nonpositive_ttw
    (st : LockStore) (k : String) (ttl : Nat) (ttw : Int)
    (polls : List (Nat × String)) (c : Nat → Bool)
    (hk : trimStr k ≠ "") (httw : ttw ≤ 0) :
    WaitWriteLock st k ttl ttw polls c =
      (("", some CacheErr.ttwRequired), st) := by
  simp [WaitWriteLock, hk, httw]

theorem waitWriteLock_nonpositive_ttw_witness :
    WaitWriteLock [] "job" 30 0 [] (fun _ => false) =
      (("", some CacheErr.ttwRequired), []) :=
  waitWriteLock_nonpositive_ttw [] "job" 30 0 [] (fun _ => false)
    (by decide) (by decide)

/-- C7: at every tick of the WaitWriteLock polling loop the caller-supplied
context is checked for cancellation before the acquire attempt; if the
context is cancelled at that tick's instant, the loop terminates at once
with the cancellation error, an empty secret, and an unchanged store,
instead of continuing to poll. -/
theorem waitLoop_cancelled_terminates
    (st : LockStore) (k : String) (ttl t : Nat) (g : String)
    (rest : List (Nat × String)) (c : Nat → Bool)
    (hc : c t = true) :
    waitLoop st k ttl ((t, g) :: rest) c =
      (("", some CacheErr.cancelledErr), st) := by
  simp [waitLoop, hc]

theorem waitLoop_cancelled_terminates_witness :
    waitLoop [] "job" 30 [(0, "aaaa"), (1, "bbbb")] (fun _ => true) =
      (("", some CacheErr.cancelledErr), []) :=
  waitLoop_cancelled_terminates [] "job" 30 0 "aaaa" [(1, "bbbb")]
    (fun _ => true) rfl

theorem hexDigit_mem_all : ∀ m, m < 16 → hexDigit m ∈ hexLowerChars := by
  decide

theorem hexEncode_length (bs : List Nat) :
    (hexEncode bs).length = 2 * bs.length := by
  induction bs with
  | nil => rfl
  | cons b rest ih => simp [hexEncode, ih]; omega

theorem hexEncode_mem (bs : List Nat) :
    ∀ c ∈ hexEncode bs, c ∈ hexLowerChars := by
  induction bs with
  | nil => intro c hc; simp [hexEncode] at hc
  | cons b rest ih =>
    intro c hc
    simp only [hexEncode, List.mem_cons] at hc
    rcases hc with rfl | rfl | hc
    · exact hexDigit_mem_all _ (Nat.mod_lt _ (by norm_num))
    · exact hexDigit_mem_all _ (Nat.mod_lt _ (by norm_num))
    · exact ih c hc

/-- C8: for every non-negative byte count n and every random byte source,
RandomHex succeeds and returns a string of length exactly 2n containing only
lowercase hexadecimal characters; in particular the length-0 result is the
empty string and the length-16 result has 32 characters. -/
theorem randomHex_nonneg_spec (n : Int) (rand : Nat → Nat) (hn : 0 ≤ n) :
    ∃ s : String, RandomHex n rand = GoResult.ok s ∧
      s.length = 2 * n.toNat ∧ ∀ c ∈ s.data, c ∈ hexLowerChars := by
  refine ⟨String.mk (hexEncode ((List.range n.toNat).map fun i =>
    rand i % 256)), ?_, ?_, ?_⟩
  · simp [RandomHex, not_lt.mpr hn]
  · show (hexEncode _).length = _
    rw [hexEncode_length]
    simp
  · intro c hc
    exact hexEncode_mem _ c hc

theorem randomHex_nonneg_spec_witness :
    (0 : Int) ≤ 16 ∧
    ∃ s : String, RandomHex 16 (fun i => i) = GoResult.ok s ∧
      s.length = 2 * (16 : Int).toNat ∧ ∀ c ∈ s.data, c ∈ hexLowerChars :=
  ⟨by decide, randomHex_nonneg_spec 16 (fun i => i) (by decide)⟩

/-- C9: for the negative input -1 and every random byte source, RandomHex
panics — the byte-slice allocation with a negative length — instead of
returning an error value or a success. -/
theorem randomHex_negative_panics (rand : Nat → Nat) :
    RandomHex (-1) rand = GoResult.panicked ∧
    (∀ e : String, (GoResult.panicked : GoResult String) ≠ GoResult.err e) ∧
    (∀ s : String, (GoResult.panicked : GoResult String) ≠ GoResult.ok s) := by
  refine ⟨rfl, ?_, ?_⟩
  · intro e h
    exact GoResult.noConfusion h
  · intro s h
    exact GoResult.noConfusion h

/-- C10: for every pair of keys with the same non-empty whitespace-trimmed
form (such as " key " and "key"), Set under the first stores the value under
the trimmed key, Get under either key returns that value, and Delete under
the second removes the entry the Set created. -/
theorem set_get_delete_trim_normalize
    (st : KVStore) (k1 k2 v : String)
    (htrim : trimStr k1 = trimStr k2) (hk : trimStr k2 ≠ "") :
    (Set st k1 v).1 = none ∧
    Get (Set st k1 v).2 k2 = Except.ok v ∧
    Get (Set st k1 v).2 k1 = Except.ok v ∧
    (Delete (Set st k1 v).2 k2).1 = none ∧
    Get (Delete (Set st k1 v).2 k2).2 k1 =
      Except.error CacheErr.notFound := by
  have hk1 : trimStr k1 ≠ "" := by rw [htrim]; exact hk
  have h1 : Set st k1 v =
      (none, (trimStr k1, v) :: removeKey st (trimStr k1)) := by
    simp [Set, hk1]
  have hget2 : Get ((trimStr k1, v) :: removeKey st (trimStr k1)) k2 =
      Except.ok v := by
    simp only [Get, ← htrim]
    simp [hk1, lookupKey_cons_self]
  have hget1 : Get ((trimStr k1, v) :: removeKey st (trimStr k1)) k1 =
      Except.ok v := by
    simp [Get, hk1, lookupKey_cons_self]
  have hdel : Delete ((trimStr k1, v) :: removeKey st (trimStr k1)) k2 =
      (none, removeKey (removeKey st (trimStr k1)) (trimStr k1)) := by
    simp only [Delete, ← htrim]
    simp [hk1, removeKey]
  have hget3 : Get (removeKey (removeKey st (trimStr k1)) (trimStr k1)) k1 =
      Except.error CacheErr.notFound := by
    simp [Get, hk1, lookupKey_removeKey_self]
  simp [h1, hget2, hget1, hdel, hget3]

theorem set_get_delete_trim_normalize_witness :
    (Set [] " key " "value").1 = none ∧
    Get (Set [] " key " "value").2 "key" = Except.ok "value" ∧
    Get (Set [] " key " "value").2 " key " = Except.ok "value" ∧
    (Delete (Set [] " key " "value").2 "key").1 = none ∧
    Get (Delete (Set [] " key " "value").2 "key").2 " key " =
      Except.error CacheErr.notFound :=
  set_get_delete_trim_normalize [] " key " "key" "value"
    (by decide) (by decide)


end Cachestore
